import Mathlib

/-!
Shallow embedding of the extraction-and-validation pipeline of the
Email Calendar Extractor repository (server.js, location-enhancer.js),
together with theorems settling the frozen claims about it.

Conventions of the embedding:
* JS strings are embedded as `List Char` (abbreviated `Str`).
* A JS `Date` value is embedded as `DateField`: `absent` for a missing /
  undefined / empty field, `invalid` for a string that parses to an
  Invalid Date, `valid d` for a civil UTC datetime `d` (the server is
  modelled in a single UTC frame, so `getFullYear`, `setHours` etc.
  operate on the same fields that `toISOString` renders).
* `JsDateTime.month` is 0-based as in JS; `day` is 1-based.
* Throwing JS code is embedded with `Except JsError`.
-/

abbrev Str := List Char

structure JsDateTime where
  year : Int
  month : Nat
  day : Nat
  hour : Nat
  minute : Nat
  second : Nat
deriving DecidableEq

inductive DateField where
  | absent
  | invalid
  | valid (d : JsDateTime)
deriving DecidableEq

inductive JsError where
  | rangeError
deriving DecidableEq

deriving instance DecidableEq for Except

structure KnownLoc where
  locName : Str
  address : Str
  city : Str
  locState : Str
  country : Str
  isWellKnownPlace : Bool
deriving DecidableEq

structure LocationDetails where
  name : Option Str
  address : Option Str
  city : Option Str
  locState : Option Str
  country : Option Str
  isWellKnownPlace : Option Bool
deriving DecidableEq

structure Attendee where
  name : Option Str
  email : Option Str
deriving DecidableEq

structure EventData where
  title : Option Str
  startDate : DateField
  endDate : DateField
  location : Option Str
  locationDetails : Option LocationDetails
  description : Option Str
  meetingLink : Option Str
  timezone : Option Str
  attendees : List Attendee
deriving DecidableEq

/-- Correction notes pushed into the warnings array; each constructor
carries the data the JS template string interpolates. -/
inductive Warning where
  | yearCorrected (minimumYear : Int)
  | timeCorrected
deriving DecidableEq

/-- Gregorian leap-year rule, as used by the JS `Date` object. -/
def isLeapYear (y : Int) : Bool :=
  (y % 4 == 0 && y % 100 != 0) || y % 400 == 0

/-- Days in a (0-based) month of a year, as used by the JS `Date` object. -/
def daysInMonth (y : Int) (m : Nat) : Nat :=
  match m with
  | 0 => 31
  | 1 => if isLeapYear y then 29 else 28
  | 2 => 31
  | 3 => 30
  | 4 => 31
  | 5 => 30
  | 6 => 31
  | 7 => 31
  | 8 => 30
  | 9 => 31
  | 10 => 30
  | _ => 31

/-- One step of day rollover; exact for calendar-valid dates. -/
def addOneDay (d : JsDateTime) : JsDateTime :=
  if d.day < daysInMonth d.year d.month then { d with day := d.day + 1 }
  else if d.month < 11 then { d with month := d.month + 1, day := 1 }
  else { d with year := d.year + 1, month := 0, day := 1 }

/-- Embedding of JS `Date.prototype.setFullYear(y)`: keeps month, day and
time-of-day, rolling an out-of-range day (Feb 29 in a non-leap target
year) forward into the next month.  Exact for calendar-valid inputs,
whose day overflow is at most 3 days. -/
def setFullYear (d : JsDateTime) (y : Int) : JsDateTime :=
  if d.day ≤ daysInMonth y d.month then { d with year := y }
  else if d.month < 11 then
    { d with year := y, month := d.month + 1, day := d.day - daysInMonth y d.month }
  else { d with year := y + 1, month := 0, day := d.day - daysInMonth y 11 }

/-- Embedding of JS `date.setHours(h, m, 0, 0)`, faithful for `h ≤ 47`
and `m ≤ 59` on calendar-valid dates (hour overflow rolls into the next
day). -/
def setHoursMin (d : JsDateTime) (h m : Nat) : JsDateTime :=
  if h ≤ 23 then { d with hour := h, minute := m, second := 0 }
  else addOneDay { d with hour := h - 24, minute := m, second := 0 }

/-- One hour after a calendar-valid datetime. -/
def plusOneHour (d : JsDateTime) : JsDateTime :=
  if d.hour < 23 then { d with hour := d.hour + 1 }
  else addOneDay { d with hour := 0 }

/-- Comparison `a <= b` on JS `Date` values (milliseconds); for civil UTC
datetimes this is the lexicographic field order. -/
def dateLe (a b : JsDateTime) : Bool :=
  if a.year ≠ b.year then a.year < b.year
  else if a.month ≠ b.month then a.month < b.month
  else if a.day ≠ b.day then a.day < b.day
  else if a.hour ≠ b.hour then a.hour < b.hour
  else if a.minute ≠ b.minute then a.minute < b.minute
  else a.second ≤ b.second

/-- The first match of the time regex
`(\d{1,2})(?::(\d{2}))?\s*(am|pm|a\.m\.|p\.m\.)` over the source text:
hour token, optional two-digit minute token, and whether the meridiem
token contains a `p`. -/
structure TimeMatch where
  hour : Nat
  minute : Option Nat
  isPM : Bool
deriving DecidableEq

/-- 12-hour to 24-hour conversion exactly as in `correctTimeExtraction`
(server.js): pm adds 12 except for 12, 12am becomes 0. -/
def to24Hour (h : Nat) (isPM : Bool) : Nat :=
  if isPM ∧ h ≠ 12 then h + 12
  else if ¬ isPM ∧ h = 12 then 0
  else h

/-- The time-mismatch condition of `validateEventData` (server.js):
hour differs, or minutes differ by more than 5. -/
def timeDiffersBeyondTolerance (d : JsDateTime) (m : TimeMatch) : Bool :=
  d.hour ≠ to24Hour m.hour m.isPM ∨
    ((d.minute : Int) - ((m.minute.getD 0 : Nat) : Int)).natAbs > 5

/-- Embedding of `correctTimeExtraction(eventData, emailContent)`
(server.js).  `firstMatch` is the first match of the time regex over
`emailContent` (`none` when the regex does not match).  On a correction
the start date gets the parsed hour/minute (seconds zeroed) and the end
date is rebuilt with `setHours(correctHour + 1, emailMinute, 0, 0)` on a
copy of the corrected start.  When the start date is missing or
unparseable and a match is present, `getHours()` is `NaN`, the
`aiHour !== correctHour` test is true, and `toISOString()` on the still
Invalid Date throws a `RangeError` - there is no try/catch here. -/
def correctTimeExtraction (e : EventData) (firstMatch : Option TimeMatch) :
    Except JsError (EventData × Bool) :=
  match firstMatch with
  | none => Except.ok (e, false)
  | some m =>
    let correctHour := to24Hour m.hour m.isPM
    let emailMinute := m.minute.getD 0
    match e.startDate with
    | DateField.valid d =>
      if d.hour ≠ correctHour then
        let s := setHoursMin d correctHour emailMinute
        let en := setHoursMin s (correctHour + 1) emailMinute
        Except.ok ({ e with startDate := DateField.valid s, endDate := DateField.valid en }, true)
      else Except.ok (e, false)
    | _ => Except.error JsError.rangeError

/-- Embedding of `correctEventYear(eventData, originalEmail)` (server.js).
The whole body is wrapped in try/catch.  An unparseable start date gives
a `NaN` year, the `< minimumYear` test is false and nothing happens.  If
the start year is below the floor, the start date is floored and written
back first; if the end date then turns out unparseable, its
`toISOString()` throws and the catch returns `corrected: false` with no
warnings - but the start-date mutation has already been committed. -/
def correctEventYear (e : EventData) (currentYear : Int) :
    EventData × Bool × List Warning :=
  let minimumYear := max 2025 currentYear
  match e.startDate with
  | DateField.valid sd =>
    if sd.year < minimumYear then
      match e.endDate with
      | DateField.valid ed =>
        ({ e with startDate := DateField.valid (setFullYear sd minimumYear),
                  endDate := DateField.valid (setFullYear ed minimumYear) },
         true, [Warning.yearCorrected minimumYear])
      | _ =>
        ({ e with startDate := DateField.valid (setFullYear sd minimumYear) }, false, [])
    else (e, false, [])
  | _ => (e, false, [])

/-- The Date/Time Corrector as applied by the `/api/extract-event`
route: `correctTimeExtraction` first, then `correctEventYear`.  Returns
the corrected record, the two corrected flags, and the year-correction
warnings. -/
def dateTimeCorrector (e : EventData) (fm : Option TimeMatch) (currentYear : Int) :
    Except JsError (EventData × Bool × Bool × List Warning) :=
  match correctTimeExtraction e fm with
  | Except.error er => Except.error er
  | Except.ok (e1, tc) =>
    let r := correctEventYear e1 currentYear
    Except.ok (r.1, tc, r.2.1, r.2.2)

/-- ASCII lowercasing of one character (the table keys and the inputs
exercised here are ASCII, where JS `toLowerCase` agrees). -/
def charToLower (c : Char) : Char :=
  if 'A' ≤ c ∧ c ≤ 'Z' then Char.ofNat (c.toNat + 32) else c

def lowerStr (s : Str) : Str := s.map charToLower

/-- Whether `hay` starts with `needle`. -/
def listStartsWith : Str → Str → Bool
  | _, [] => true
  | [], _ :: _ => false
  | a :: as, b :: bs => a == b && listStartsWith as bs

/-- JS `hay.includes(needle)`: substring containment. -/
def listContains (hay needle : Str) : Bool :=
  if listStartsWith hay needle then true
  else
    match hay with
    | [] => false
    | _ :: t => listContains t needle

/-- The static `knownLocations` table of location-enhancer.js, in
insertion order (JS object key order for string keys). -/
def knownLocations : List (Str × KnownLoc) :=
  [("cn tower".data,
    ⟨"CN Tower".data, "290 Bremner Blvd, Toronto, ON M5V 3L9".data,
     "Toronto".data, "ON".data, "Canada".data, true⟩),
   ("rogers centre".data,
    ⟨"Rogers Centre".data, "1 Blue Jays Way, Toronto, ON M5V 1J1".data,
     "Toronto".data, "ON".data, "Canada".data, true⟩),
   ("union station".data,
    ⟨"Union Station Toronto".data, "65 Front St W, Toronto, ON M5J 1E6".data,
     "Toronto".data, "ON".data, "Canada".data, true⟩),
   ("eaton centre".data,
    ⟨"CF Toronto Eaton Centre".data, "220 Yonge St, Toronto, ON M5B 2H1".data,
     "Toronto".data, "ON".data, "Canada".data, true⟩),
   ("pearson airport".data,
    ⟨"Toronto Pearson International Airport".data,
     "6301 Silver Dart Dr, Mississauga, ON L5P 1B2".data,
     "Mississauga".data, "ON".data, "Canada".data, true⟩),
   ("casa loma".data,
    ⟨"Casa Loma".data, "1 Austin Terrace, Toronto, ON M5R 1X8".data,
     "Toronto".data, "ON".data, "Canada".data, true⟩),
   ("harbourfront centre".data,
    ⟨"Harbourfront Centre".data, "235 Queens Quay W, Toronto, ON M5J 2G8".data,
     "Toronto".data, "ON".data, "Canada".data, true⟩),
   ("jack astors".data,
    ⟨"Jack Astor\x27s Bar and Grill".data, "Multiple locations in Toronto area".data,
     "Toronto".data, "ON".data, "Canada".data, false⟩),
   ("the keg".data,
    ⟨"The Keg Steakhouse + Bar".data, "Multiple locations in Toronto area".data,
     "Toronto".data, "ON".data, "Canada".data, false⟩),
   ("swiss chalet".data,
    ⟨"Swiss Chalet".data, "Multiple locations in Toronto area".data,
     "Toronto".data, "ON".data, "Canada".data, false⟩)]

/-- Lookup `this.knownLocations[locationKey]`: exact key match. -/
def exactMatch (key : Str) : Option KnownLoc :=
  (knownLocations.find? (fun p => p.1 == key)).map Prod.snd

/-- The fallback scan of `enhanceLocation`: first table entry whose key
contains the lowercased name or is contained in it. -/
def scanMatch (key : Str) : Option KnownLoc :=
  (knownLocations.find? (fun p => listContains key p.1 || listContains p.1 key)).map Prod.snd

/-- The object spread `{...locationDetails, ...knownLocation}`: every
field of the canonical record (including its `name`) overlays the
input. -/
def applyKnown (ld : LocationDetails) (k : KnownLoc) : LocationDetails :=
  { ld with name := some k.locName, address := some k.address, city := some k.city,
            locState := some k.locState, country := some k.country,
            isWellKnownPlace := some k.isWellKnownPlace }

/-- Embedding of `LocationEnhancer.enhanceLocation(locationDetails)`
(location-enhancer.js).  A missing record or a falsy (`none` or empty)
name passes through unchanged.  On an exact key match the spread
overlays all fields, canonical name included; on a containment match
the original name is restored (`name: locationDetails.name`); on a
total miss the input is returned unchanged. -/
def enhanceLocation : Option LocationDetails → Option LocationDetails
  | none => none
  | some ld =>
    match ld.name with
    | none => some ld
    | some n =>
      if n = [] then some ld
      else
        let key := lowerStr n
        match exactMatch key with
        | some k => some (applyKnown ld k)
        | none =>
          match scanMatch key with
          | some k => some { applyKnown ld k with name := some n }
          | none => some ld

inductive ValidationError where
  | missingDateError
  | malformedDateError
  | orderingError
deriving DecidableEq

/-- Embedding of `validateAndNormalizeSingleEvent(eventData,
userCurrentTime)` (server.js).  Location enhancement runs first, then:
a missing start or end date throws "Missing required date information"
(`missingDateError`); a date parsing to `NaN` throws "Invalid date
format received from AI" (`malformedDateError`); `endDate <= startDate`
throws "End date must be after start date" (`orderingError`).  On
success the parsed dates are re-serialized (the identity on the embedded
instants). -/
def validateAndNormalizeSingleEvent (e : EventData) : Except ValidationError EventData :=
  let e1 := { e with locationDetails := enhanceLocation e.locationDetails }
  match e1.startDate, e1.endDate with
  | DateField.absent, _ => Except.error ValidationError.missingDateError
  | _, DateField.absent => Except.error ValidationError.missingDateError
  | DateField.invalid, _ => Except.error ValidationError.malformedDateError
  | _, DateField.invalid => Except.error ValidationError.malformedDateError
  | DateField.valid s, DateField.valid t =>
    if dateLe t s then Except.error ValidationError.orderingError
    else Except.ok e1

/-- Embedding of `events.map(ev => this.validateAndNormalizeSingleEvent(ev))`: a JS
`.map` whose callback throws aborts at the first failing element. -/
def mapValidate : List EventData → Except ValidationError (List EventData)
  | [] => Except.ok []
  | e :: rest =>
    match validateAndNormalizeSingleEvent e with
    | Except.error er => Except.error er
    | Except.ok e1 =>
      match mapValidate rest with
      | Except.error er => Except.error er
      | Except.ok rest1 => Except.ok (e1 :: rest1)

/-- The JSON object returned by the inference collaborator: either the
batch shape with an `events` array, or the legacy flat shape. -/
inductive AiPayload where
  | batch (hasEvent : Bool) (events : List EventData)
  | flat (hasEvent : Bool) (event : EventData)
deriving DecidableEq

def payloadHasEvent : AiPayload → Bool
  | AiPayload.batch h _ => h
  | AiPayload.flat h _ => h

def eventsOf : AiPayload → List EventData
  | AiPayload.batch _ evs => evs
  | AiPayload.flat _ e => [e]

/-- The post-inference part of `parseContentWithAI` (server.js): when
`hasEvent` is true, validate and normalize every element of the batch
(wrapping a legacy flat record into a one-element batch); when
`hasEvent` is false, the parsed data is returned unchanged. -/
def parseContentPost : AiPayload → Except ValidationError AiPayload
  | AiPayload.batch true evs =>
    match mapValidate evs with
    | Except.error er => Except.error er
    | Except.ok evs1 => Except.ok (AiPayload.batch true evs1)
  | AiPayload.flat true e =>
    match validateAndNormalizeSingleEvent e with
    | Except.error er => Except.error er
    | Except.ok e1 => Except.ok (AiPayload.batch true [e1])
  | p => Except.ok p

/-- One global replace of a single character, as in the chained
`.replace(/x/g, repl)` calls of `generateIcsContent`. -/
def replaceChar (c : Char) (repl : Str) : Str → Str
  | [] => []
  | a :: rest =>
    if a = c then repl ++ replaceChar c repl rest
    else a :: replaceChar c repl rest

/-- The LOCATION escaping of `generateIcsContent` (server.js): escape
backslashes first, then semicolons, commas, newlines and carriage
returns, each into a backslash sequence. -/
def escapeICS (s : Str) : Str :=
  replaceChar '\r' ['\\', 'r']
    (replaceChar '\n' ['\\', 'n']
      (replaceChar ',' ['\\', ',']
        (replaceChar ';' ['\\', ';']
          (replaceChar '\\' ['\\', '\\'] s))))

/-- Per-character view of `escapeICS` (proved equal to it below). -/
def escChar (a : Char) : Str :=
  if a = '\\' then ['\\', '\\']
  else if a = ';' then ['\\', ';']
  else if a = ',' then ['\\', ',']
  else if a = '\n' then ['\\', 'n']
  else if a = '\r' then ['\\', 'r']
  else [a]

def unescChar (c : Char) : Char :=
  if c = 'n' then '\n' else if c = 'r' then '\r' else c

/-- Modelled from the spec: the standard text-value unescaping of the
calendar format (the decoder is not part of this repository).  Each
backslash-escaped pair is mapped back: `\\` to a backslash, `\;` to a
semicolon, `\,` to a comma, `\n` to a newline, `\r` to a carriage
return. -/
def unescapeICS : Str → Str
  | [] => []
  | c :: rest =>
    if c = '\\' then
      match rest with
      | [] => ['\\']
      | d :: rest2 => unescChar d :: unescapeICS rest2
    else c :: unescapeICS rest

/-- The continuation-building loop of `foldLine`: 74-character chunks,
each preceded by CRLF and a single space. -/
def foldTail (r : Str) : Str :=
  if h : r = [] then []
  else '\r' :: '\n' :: ' ' :: (r.take 74 ++ foldTail (r.drop 74))
termination_by r.length
decreasing_by
  have hp : 0 < r.length := List.length_pos.mpr h
  simp [List.length_drop]
  omega

/-- Embedding of `foldLine` (server.js): lines of at most 75 characters
pass through; longer lines keep their first 75 characters and continue
in space-indented 74-character chunks. -/
def foldLine (line : Str) : Str :=
  if line.length ≤ 75 then line
  else line.take 75 ++ foldTail (line.drop 75)

/-- Unfolding per the format rules: delete every CRLF-plus-one-space
sequence (i.e. rejoin continuation lines stripping one leading space
each). -/
def unfoldLine : Str → Str
  | [] => []
  | c :: rest =>
    if c = '\r' then
      match rest with
      | d :: e :: rest2 =>
        if d = '\n' ∧ e = ' ' then unfoldLine rest2 else c :: unfoldLine (d :: e :: rest2)
      | other => c :: other
    else c :: unfoldLine rest
termination_by s => s.length
decreasing_by all_goals (simp [List.length_cons]; try omega)

/-- Every line break of a folded line is a CRLF followed by a space, and
no stray LF occurs. -/
def foldOk : Str → Bool
  | [] => true
  | c :: rest =>
    if c = '\r' then
      match rest with
      | d :: e :: rest2 => (d == '\n') && (e == ' ') && foldOk rest2
      | _ => false
    else if c = '\n' then false
    else foldOk rest

def digitChar (n : Nat) : Char := Char.ofNat (48 + n % 10)

def pad2 (n : Nat) : Str := [digitChar (n / 10), digitChar n]

def pad4 (n : Nat) : Str :=
  [digitChar (n / 1000), digitChar (n / 100), digitChar (n / 10), digitChar n]

/-- Rendering of `date.toISOString()` stripped of `-`, `:` and milliseconds, plus `Z`:
the UTC basic ISO form `YYYYMMDDTHHMMSSZ`. -/
def renderIcsDate (d : JsDateTime) : Str :=
  pad4 d.year.toNat ++ pad2 (d.month + 1) ++ pad2 d.day ++ ['T'] ++
    pad2 d.hour ++ pad2 d.minute ++ pad2 d.second ++ ['Z']

/-- The `formatDate` helper of the newer `generateIcsContent`: no
try/catch, so `toISOString()` on a missing or Invalid Date throws. -/
def formatDateIcs : DateField → Except JsError Str
  | DateField.valid d => Except.ok (renderIcsDate d)
  | _ => Except.error JsError.rangeError

def joinSep (sep : Str) : List Str → Str
  | [] => []
  | [s] => s
  | s :: rest => s ++ sep ++ joinSep sep rest

/-- A truthy string field: present and non-empty. -/
def truthy : Option Str → Option Str
  | some s => if s = [] then none else some s
  | none => none

/-- The `icsLocation` assembly of `generateIcsContent` (server.js):
prefer `locationDetails.name` plus `locationDetails.address`; without an
address, assemble city/state/country; fall back to the flat `location`
string when the parts join to an empty string. -/
def buildIcsLocation (e : EventData) : Str :=
  let base := (truthy e.location).getD []
  match e.locationDetails with
  | none => base
  | some ld =>
    let p1 : List Str := match truthy ld.name with
      | some n => [n]
      | none => []
    let p2 : List Str := match truthy ld.address with
      | some a => [a]
      | none =>
        let ap : List Str :=
          (match truthy ld.city with | some c => [c] | none => []) ++
          (match truthy ld.locState with | some s => [s] | none => []) ++
          (match truthy ld.country with | some c => [c] | none => [])
        if ap = [] then [] else [joinSep ", ".data ap]
    let j := joinSep ", ".data (p1 ++ p2)
    if j = [] then base else j

/-- The local part `email.split('@')[0]`. -/
def emailLocalPart (em : Str) : Str := em.takeWhile (fun c => c ≠ '@')

def attendeeCN (a : Attendee) (em : Str) : Str :=
  match a.name with
  | some n => if n = [] then emailLocalPart em else n
  | none => emailLocalPart em

def organizerLines : List Attendee → List Str
  | a :: _ =>
    (match truthy a.email with
     | some em =>
       ["ORGANIZER;CN=\"".data ++ attendeeCN a em ++ "\":mailto:".data ++ em]
     | none => [])
  | [] => []

def attendeeLines (as : List Attendee) : List Str :=
  as.flatMap (fun a =>
    match a.email with
    | some em =>
      if em = [] then []
      else ["ATTENDEE;CN=\"".data ++ attendeeCN a em ++
            "\";ROLE=REQ-PARTICIPANT;PARTSTAT=NEEDS-ACTION;RSVP=TRUE:mailto:".data ++ em]
    | none => [])

/-- Embedding of `icsParts.splice(-1, 0, x)`: insert before the last element. -/
def insertBeforeLast (l : List Str) (x : Str) : List Str :=
  l.take (l.length - 1) ++ [x] ++ l.drop (l.length - 1)

/-- The per-event block of the newer `generateIcsContent` (server.js):
UID/DTSTAMP/DTSTART/DTEND/SUMMARY/DESCRIPTION, the escaped and folded
LOCATION line, organizer and attendee lines, and the timezone property
spliced in before the block's current last line. -/
def eventLines (uid ts : Str) (ev : EventData) : Except JsError (List Str) :=
  match formatDateIcs ev.startDate with
  | Except.error er => Except.error er
  | Except.ok ds =>
    match formatDateIcs ev.endDate with
    | Except.error er => Except.error er
    | Except.ok de =>
      let summary := match truthy ev.title with
        | some t => t
        | none => "No Title".data
      let desc := replaceChar '\n' ['\\', 'n'] (ev.description.getD [])
      let locLine := foldLine ("LOCATION:".data ++ escapeICS (buildIcsLocation ev))
      let base :=
        ["BEGIN:VEVENT".data,
         "UID:".data ++ uid ++ "@aical.com".data,
         "DTSTAMP:".data ++ ts,
         "DTSTART:".data ++ ds,
         "DTEND:".data ++ de,
         "SUMMARY:".data ++ summary,
         "DESCRIPTION:".data ++ desc,
         locLine,
         "STATUS:CONFIRMED".data,
         "SEQUENCE:0".data,
         "TRANSP:OPAQUE".data] ++
        organizerLines ev.attendees ++ attendeeLines ev.attendees
      let withTz := match truthy ev.timezone with
        | some tz => insertBeforeLast base ("X-ORIGINAL-TIMEZONE:".data ++ tz)
        | none => base
      Except.ok (withTz ++ ["END:VEVENT".data])

def icsHeader : List Str :=
  ["BEGIN:VCALENDAR".data, "VERSION:2.0".data,
   "PRODID:-//AiCal//Event Extractor//EN".data, "CALSCALE:GREGORIAN".data,
   "METHOD:REQUEST".data, "X-WR-CALNAME:Calendar Invitation".data,
   "X-WR-TIMEZONE:UTC".data]

def eventLinesAll (uid ts : Str) : List EventData → Except JsError (List Str)
  | [] => Except.ok []
  | ev :: rest =>
    match eventLines uid ts ev with
    | Except.error er => Except.error er
    | Except.ok ls =>
      match eventLinesAll uid ts rest with
      | Except.error er => Except.error er
      | Except.ok rest1 => Except.ok (ls ++ rest1)

/-- Embedding of the newer `generateIcsContent(eventData)` (server.js),
as a list of lines (the source joins them with CRLF).  `uid` stands for
the generated UUID and `ts` for the `DTSTAMP` timestamp. -/
def generateIcsContent (uid ts : Str) (evs : List EventData) : Except JsError (List Str) :=
  match eventLinesAll uid ts evs with
  | Except.error er => Except.error er
  | Except.ok body => Except.ok (icsHeader ++ body ++ ["END:VCALENDAR".data])

/-- The sentinel the meeting-link scanner returns when join-intent text
is present but no URL could be isolated. -/
def sentinelLink : Str := "MEETING_LINK_PRESENT_BUT_NOT_EXTRACTED".data

/-- The description assembly of the older `generateICSContent`
(server.js): start from `description || ''` and, when `meetingLink` is
truthy, append a blank escaped line and `Join Meeting: ` plus the link
verbatim. -/
def buildDescription (e : EventData) : Str :=
  let d := e.description.getD []
  match truthy e.meetingLink with
  | some link => (if d = [] then d else d ++ "\\n\\n".data) ++ "Join Meeting: ".data ++ link
  | none => d

/-- The `formatICSDate` helper of the older `generateICSContent`: missing or
unparseable dates fall back to the current timestamp (the try/catch is
inside the helper). -/
def formatICSDateOld (ts : Str) : DateField → Str
  | DateField.valid d => renderIcsDate d
  | _ => ts

/-- Embedding of the older `generateICSContent(eventData)` (server.js),
as the list of lines of its template literal. -/
def generateICSContent (uid ts : Str) (e : EventData) : List Str :=
  ["BEGIN:VCALENDAR".data,
   "VERSION:2.0".data,
   "PRODID:-//Email Calendar Extractor//EN".data,
   "CALSCALE:GREGORIAN".data,
   "METHOD:PUBLISH".data,
   "BEGIN:VEVENT".data,
   "UID:".data ++ uid ++ "@email-calendar-extractor.com".data,
   "DTSTART:".data ++ formatICSDateOld ts e.startDate,
   "DTEND:".data ++ formatICSDateOld ts e.endDate,
   "SUMMARY:".data ++ ((truthy e.title).getD "Extracted Event".data),
   "DESCRIPTION:".data ++ buildDescription e,
   "LOCATION:".data ++ ((truthy e.location).getD []),
   "STATUS:CONFIRMED".data,
   "SEQUENCE:0".data,
   "CREATED:".data ++ ts,
   "LAST-MODIFIED:".data ++ ts,
   "END:VEVENT".data,
   "END:VCALENDAR".data]

/-- The observable outcome of one `/api/extract-event` request
(`handleEventExtraction`, server.js). -/
inductive ExtractResult where
  | success (payload : AiPayload) (ics : List Str)
  | noEventFound
  | internalError
  | invalidInput
deriving DecidableEq

/-- The HTTP status and error message each outcome is sent with. -/
def responseOf : ExtractResult → Nat × Option String
  | ExtractResult.success _ _ => (200, none)
  | ExtractResult.noEventFound =>
    (400, some "No calendar event could be found in the provided content.")
  | ExtractResult.internalError =>
    (500, some "Failed to extract calendar event due to an internal error.")
  | ExtractResult.invalidInput => (400, some "Invalid input")

/-- The calendar document carried by an outcome, if any. -/
def resultIcs : ExtractResult → Option (List Str)
  | ExtractResult.success _ ics => some ics
  | _ => none

/-- Embedding of `handleEventExtraction` (server.js): a throw inside
`parseContentWithAI` (validation failure) is caught and answered with
the 500 internal-error response; a parsed result without an event
short-circuits to the 400 no-event response before any document is
generated; otherwise the ICS document is generated (a throw there is
caught by the same handler) and returned with the event data. -/
def handleEventExtraction (p : AiPayload) (uid ts : Str) : ExtractResult :=
  match parseContentPost p with
  | Except.error _ => ExtractResult.internalError
  | Except.ok r =>
    if payloadHasEvent r then
      match generateIcsContent uid ts (eventsOf r) with
      | Except.error _ => ExtractResult.internalError
      | Except.ok doc => ExtractResult.success r doc
    else ExtractResult.noEventFound

lemma replaceChar_append (c : Char) (r x y : Str) :
    replaceChar c r (x ++ y) = replaceChar c r x ++ replaceChar c r y := by
  induction x with
  | nil => rfl
  | cons a t ih =>
    by_cases h : a = c <;> simp [replaceChar, h, ih]

lemma escapeICS_append (x y : Str) :
    escapeICS (x ++ y) = escapeICS x ++ escapeICS y := by
  simp [escapeICS, replaceChar_append]

lemma escapeICS_single (a : Char) : escapeICS [a] = escChar a := by
  by_cases h1 : a = '\\'
  · subst h1; rfl
  by_cases h2 : a = ';'
  · subst h2; rfl
  by_cases h3 : a = ','
  · subst h3; rfl
  by_cases h4 : a = '\n'
  · subst h4; rfl
  by_cases h5 : a = '\r'
  · subst h5; rfl
  simp [escapeICS, replaceChar, escChar, h1, h2, h3, h4, h5]

lemma escapeICS_cons (a : Char) (s : Str) :
    escapeICS (a :: s) = escChar a ++ escapeICS s := by
  have h : a :: s = [a] ++ s := rfl
  rw [h, escapeICS_append, escapeICS_single]

lemma unescapeICS_cons_ne (a : Char) (h : a ≠ '\\') (X : Str) :
    unescapeICS (a :: X) = a :: unescapeICS X := by
  conv_lhs => rw [unescapeICS.eq_def]
  simp [h]

lemma unescapeICS_pair (d : Char) (X : Str) :
    unescapeICS ('\\' :: d :: X) = unescChar d :: unescapeICS X := by
  conv_lhs => rw [unescapeICS.eq_def]
  simp

/-- Claim C5: every location string, in particular one containing
backslash, semicolon, comma, newline or carriage return, is escaped by
the encoder per the calendar format's rules, and unescaping the escaped
value recovers the original string exactly. -/
theorem c5_location_escape_roundtrip (s : Str) :
    unescapeICS (escapeICS s) = s := by
  induction s with
  | nil => rfl
  | cons a t ih =>
    rw [escapeICS_cons]
    by_cases h1 : a = '\\'
    · subst h1
      have he : escChar '\\' = ['\\', '\\'] := rfl
      rw [he]
      show unescapeICS ('\\' :: '\\' :: escapeICS t) = _
      rw [unescapeICS_pair]
      have hu : unescChar '\\' = '\\' := rfl
      rw [hu, ih]
    by_cases h2 : a = ';'
    · subst h2
      have he : escChar ';' = ['\\', ';'] := rfl
      rw [he]
      show unescapeICS ('\\' :: ';' :: escapeICS t) = _
      rw [unescapeICS_pair]
      have hu : unescChar ';' = ';' := rfl
      rw [hu, ih]
    by_cases h3 : a = ','
    · subst h3
      have he : escChar ',' = ['\\', ','] := rfl
      rw [he]
      show unescapeICS ('\\' :: ',' :: escapeICS t) = _
      rw [unescapeICS_pair]
      have hu : unescChar ',' = ',' := rfl
      rw [hu, ih]
    by_cases h4 : a = '\n'
    · subst h4
      have he : escChar '\n' = ['\\', 'n'] := rfl
      rw [he]
      show unescapeICS ('\\' :: 'n' :: escapeICS t) = _
      rw [unescapeICS_pair]
      have hu : unescChar 'n' = '\n' := rfl
      rw [hu, ih]
    by_cases h5 : a = '\r'
    · subst h5
      have he : escChar '\r' = ['\\', 'r'] := rfl
      rw [he]
      show unescapeICS ('\\' :: 'r' :: escapeICS t) = _
      rw [unescapeICS_pair]
      have hu : unescChar 'r' = '\r' := rfl
      rw [hu, ih]
    have he : escChar a = [a] := by simp [escChar, h1, h2, h3, h4, h5]
    rw [he]
    show unescapeICS (a :: escapeICS t) = _
    rw [unescapeICS_cons_ne a h1, ih]

lemma unfoldLine_cons_ne (a : Char) (h : a ≠ '\r') (X : Str) :
    unfoldLine (a :: X) = a :: unfoldLine X := by
  conv_lhs => rw [unfoldLine.eq_def]
  simp [h]

lemma unfoldLine_crlf (X : Str) :
    unfoldLine ('\r' :: '\n' :: ' ' :: X) = unfoldLine X := by
  conv_lhs => rw [unfoldLine.eq_def]
  simp

lemma unfoldLine_append_noCR (p X : Str) (hp : ∀ c ∈ p, c ≠ '\r') :
    unfoldLine (p ++ X) = p ++ unfoldLine X := by
  induction p with
  | nil => rfl
  | cons a t ih =>
    have ha := hp a (List.mem_cons_self a t)
    rw [List.cons_append, unfoldLine_cons_ne a ha,
        ih (fun c hc => hp c (List.mem_cons_of_mem a hc))]
    rfl

lemma unfold_foldTail_aux (n : Nat) :
    ∀ r : Str, r.length ≤ n → (∀ c ∈ r, c ≠ '\r') →
      unfoldLine (foldTail r) = r := by
  induction n with
  | zero =>
    intro r hr _
    have hnil : r = [] := List.length_eq_zero.mp (Nat.le_zero.mp hr)
    subst hnil
    rw [foldTail.eq_def]
    simp
    rw [unfoldLine.eq_def]
  | succ n ih =>
    intro r hr hcr
    by_cases h : r = []
    · subst h
      rw [foldTail.eq_def]
      simp
      rw [unfoldLine.eq_def]
    · rw [foldTail.eq_def]
      simp only [dif_neg h]
      rw [unfoldLine_crlf,
          unfoldLine_append_noCR (r.take 74) _
            (fun c hc => hcr c (List.take_subset _ _ hc))]
      have hlen : (r.drop 74).length ≤ n := by
        have hpos : 0 < r.length := List.length_pos.mpr h
        simp only [List.length_drop]
        omega
      rw [ih (r.drop 74) hlen (fun c hc => hcr c (List.drop_subset _ _ hc))]
      exact List.take_append_drop 74 r

lemma foldOk_cons_ne (a : Char) (h1 : a ≠ '\r') (h2 : a ≠ '\n') (X : Str) :
    foldOk (a :: X) = foldOk X := by
  conv_lhs => rw [foldOk.eq_def]
  simp [h1, h2]

lemma foldOk_crlfsp (X : Str) :
    foldOk ('\r' :: '\n' :: ' ' :: X) = foldOk X := by
  conv_lhs => rw [foldOk.eq_def]
  simp

lemma foldOk_append (p X : Str) (hp : ∀ c ∈ p, c ≠ '\r' ∧ c ≠ '\n') :
    foldOk (p ++ X) = foldOk X := by
  induction p with
  | nil => rfl
  | cons a t ih =>
    have ha := hp a (List.mem_cons_self a t)
    rw [List.cons_append, foldOk_cons_ne a ha.1 ha.2,
        ih (fun c hc => hp c (List.mem_cons_of_mem a hc))]

lemma foldOk_foldTail_aux (n : Nat) :
    ∀ r : Str, r.length ≤ n → (∀ c ∈ r, c ≠ '\r' ∧ c ≠ '\n') →
      foldOk (foldTail r) = true := by
  induction n with
  | zero =>
    intro r hr _
    have hnil : r = [] := List.length_eq_zero.mp (Nat.le_zero.mp hr)
    subst hnil
    rw [foldTail.eq_def]
    simp
    rfl
  | succ n ih =>
    intro r hr hcr
    by_cases h : r = []
    · subst h
      rw [foldTail.eq_def]
      simp
      rfl
    · rw [foldTail.eq_def]
      simp only [dif_neg h]
      rw [foldOk_crlfsp,
          foldOk_append (r.take 74) _
            (fun c hc => hcr c (List.take_subset _ _ hc))]
      have hlen : (r.drop 74).length ≤ n := by
        have hpos : 0 < r.length := List.length_pos.mpr h
        simp only [List.length_drop]
        omega
      exact ih (r.drop 74) hlen (fun c hc => hcr c (List.drop_subset _ _ hc))

/-- Claim C6: a composed LOCATION line longer than the 75-character fold
threshold is split into a first line plus space-indented continuation
lines (every line break in the folded output is a CRLF followed by a
space), and unfolding - deleting each CRLF-plus-one-space sequence,
i.e. rejoining while stripping one leading space per continuation -
reconstructs the original unfolded line exactly. -/
theorem c6_fold_roundtrip (line : Str) (hlen : 75 < line.length)
    (hcr : '\r' ∉ line) (hlf : '\n' ∉ line) :
    unfoldLine (foldLine line) = line ∧ foldOk (foldLine line) = true := by
  have hne : ¬ line.length ≤ 75 := by omega
  have hfold : foldLine line = line.take 75 ++ foldTail (line.drop 75) := by
    simp [foldLine, hne]
  have hcr' : ∀ c ∈ line, c ≠ '\r' := by
    intro c hc hrc
    exact hcr (hrc ▸ hc)
  have hlf' : ∀ c ∈ line, c ≠ '\n' := by
    intro c hc hrc
    exact hlf (hrc ▸ hc)
  constructor
  · rw [hfold,
        unfoldLine_append_noCR (line.take 75) _
          (fun c hc => hcr' c (List.take_subset _ _ hc)),
        unfold_foldTail_aux (line.drop 75).length (line.drop 75) le_rfl
          (fun c hc => hcr' c (List.drop_subset _ _ hc))]
    exact List.take_append_drop 75 line
  · rw [hfold,
        foldOk_append (line.take 75) _
          (fun c hc => ⟨hcr' c (List.take_subset _ _ hc), hlf' c (List.take_subset _ _ hc)⟩)]
    exact foldOk_foldTail_aux (line.drop 75).length (line.drop 75) le_rfl
      (fun c hc => ⟨hcr' c (List.drop_subset _ _ hc), hlf' c (List.drop_subset _ _ hc)⟩)

/-- Witness for C6 at the concrete 80-character line of `x`s. -/
theorem c6_witness :
    75 < (List.replicate 80 'x').length ∧
    '\r' ∉ List.replicate 80 'x' ∧ '\n' ∉ List.replicate 80 'x' ∧
    (unfoldLine (foldLine (List.replicate 80 'x')) = List.replicate 80 'x' ∧
      foldOk (foldLine (List.replicate 80 'x')) = true) :=
  ⟨by decide, by decide, by decide,
   c6_fold_roundtrip (List.replicate 80 'x') (by decide) (by decide) (by decide)⟩

/-- An `EventData` skeleton with every optional field empty. -/
def emptyEvent : EventData :=
  ⟨none, DateField.absent, DateField.absent, none, none, none, none, none, []⟩

def c7input : LocationDetails :=
  ⟨some "cn tower".data, none, none, none, none, none⟩

def c7output : LocationDetails :=
  ⟨some "CN Tower".data, some "290 Bremner Blvd, Toronto, ON M5V 3L9".data,
   some "Toronto".data, some "ON".data, some "Canada".data, some true⟩

/-- Counterexample to claim C7 as stated: on the exact-match input name
"cn tower" the enhancer's object spread replaces the original name with
the canonical "CN Tower", so the output's name differs from the
input's. -/
theorem c7_counterexample :
    enhanceLocation (some c7input) = some c7output ∧
    c7output.name ≠ c7input.name := by
  constructor
  · decide
  · decide

/-- Claim C7 amended: the output's name equals the input's name whenever
the lowercased name misses the exact lookup (a substring match overlays
only address, city, state, country and the well-known flag and restores
the original name; a total miss returns the input unchanged); on an
exact match the whole canonical record, its canonical name included,
overlays the input. -/
theorem c7_enhancer_name_amended (ld : LocationDetails) (n : Str)
    (hn : ld.name = some n) (hne : n ≠ []) :
    (∀ k, exactMatch (lowerStr n) = some k →
        enhanceLocation (some ld) = some (applyKnown ld k)) ∧
    (exactMatch (lowerStr n) = none →
      (∀ k, scanMatch (lowerStr n) = some k →
          enhanceLocation (some ld) = some { applyKnown ld k with name := some n }) ∧
      (scanMatch (lowerStr n) = none → enhanceLocation (some ld) = some ld)) := by
  refine ⟨?_, fun hex => ⟨?_, ?_⟩⟩
  · intro k hk
    simp [enhanceLocation, hn, hne, hk]
  · intro k hk
    simp [enhanceLocation, hn, hne, hex, hk]
  · intro hscan
    simp [enhanceLocation, hn, hne, hex, hscan]

def c7wit : LocationDetails :=
  ⟨some "starbucks".data, none, none, none, none, none⟩

/-- Witness for the amended C7 at the total-miss name "starbucks". -/
theorem c7_witness :
    c7wit.name = some "starbucks".data ∧
    "starbucks".data ≠ ([] : Str) ∧
    exactMatch (lowerStr "starbucks".data) = none ∧
    scanMatch (lowerStr "starbucks".data) = none ∧
    enhanceLocation (some c7wit) = some c7wit :=
  ⟨rfl, by decide, by decide, by decide,
   ((c7_enhancer_name_amended c7wit "starbucks".data rfl (by decide)).2
     (by decide)).2 (by decide)⟩

def c2start : JsDateTime := ⟨2024, 1, 29, 10, 30, 0⟩

def c2e : EventData :=
  { emptyEvent with startDate := DateField.valid c2start,
                    endDate := DateField.valid ⟨2024, 1, 29, 11, 30, 0⟩ }

/-- Counterexample to claim C2 as stated: for a record starting
2024-02-29 10:30 with floor year 2025, `setFullYear` rolls the
nonexistent Feb 29, 2025 over to Mar 1, 2025, so month and day are not
preserved. -/
theorem c2_counterexample :
    c2start.year < max 2025 2025 ∧
    (correctEventYear c2e 2025).1.startDate ≠
      DateField.valid { c2start with year := max 2025 2025 } ∧
    (correctEventYear c2e 2025).1.startDate = DateField.valid ⟨2025, 2, 1, 10, 30, 0⟩ := by
  refine ⟨by decide, by decide, by decide⟩

/-- Claim C2 amended: for records whose start and end dates are
parseable and whose month/day combinations exist in the floor year
`max(2025, currentYear)`, the year-floor correction rewrites both years
to the floor, preserves each date's month, day, hour and minute, and
emits the correction note. -/
theorem c2_year_floor_amended (e : EventData) (sd ed : JsDateTime) (cy : Int)
    (hs : e.startDate = DateField.valid sd) (he : e.endDate = DateField.valid ed)
    (hy : sd.year < max 2025 cy)
    (hds : sd.day ≤ daysInMonth (max 2025 cy) sd.month)
    (hde : ed.day ≤ daysInMonth (max 2025 cy) ed.month) :
    correctEventYear e cy =
      ({ e with startDate := DateField.valid { sd with year := max 2025 cy },
                endDate := DateField.valid { ed with year := max 2025 cy } },
       true, [Warning.yearCorrected (max 2025 cy)]) := by
  simp [correctEventYear, hs, he, hy, setFullYear, hds, hde]

def c2wsd : JsDateTime := ⟨2023, 4, 15, 9, 0, 0⟩

def c2wed : JsDateTime := ⟨2023, 4, 15, 10, 0, 0⟩

def c2we : EventData :=
  { emptyEvent with startDate := DateField.valid c2wsd,
                    endDate := DateField.valid c2wed }

/-- Witness for the amended C2 at a concrete May 15, 2023 record. -/
theorem c2_witness :
    c2wsd.year < max 2025 2025 ∧
    correctEventYear c2we 2025 =
      ({ c2we with startDate := DateField.valid { c2wsd with year := max 2025 2025 },
                   endDate := DateField.valid { c2wed with year := max 2025 2025 } },
       true, [Warning.yearCorrected (max 2025 2025)]) :=
  ⟨by decide,
   c2_year_floor_amended c2we c2wsd c2wed 2025 rfl rfl (by decide) (by decide) (by decide)⟩

def c3sd : JsDateTime := ⟨2025, 5, 10, 14, 20, 0⟩

def c3e : EventData :=
  { emptyEvent with startDate := DateField.valid c3sd,
                    endDate := DateField.valid ⟨2025, 5, 10, 15, 20, 0⟩ }

def c3m : TimeMatch := ⟨2, some 0, true⟩

/-- Counterexample to claim C3 as stated: the source text's first time
phrase is 2:00pm while the inferred start is 14:20 - the minute fields
differ by 20, beyond the 5-minute tolerance - yet the corrector makes no
correction and returns the record unchanged, because it compares only
the hour. -/
theorem c3_counterexample :
    timeDiffersBeyondTolerance c3sd c3m = true ∧
    correctTimeExtraction c3e (some c3m) = Except.ok (c3e, false) := by
  refine ⟨by decide, by decide⟩

/-- Claim C3 amended: the phrase is converted to 24-hour form by the
standard rules (12am to 0, 12pm to 12, pm adds 12 except for 12), and
the corrector overwrites the inferred start hour and minute with the
parsed value exactly when the inferred start HOUR differs from the
parsed 24-hour value (the minute field is never compared; the 5-minute
minute tolerance belongs to the validator's warning only); on a
correction the end time is recomputed as start plus one hour. -/
theorem c3_time_correction_amended (e : EventData) (d : JsDateTime) (tm : TimeMatch)
    (hd : e.startDate = DateField.valid d)
    (hch : to24Hour tm.hour tm.isPM ≤ 23) (hem : tm.minute.getD 0 ≤ 59) :
    (to24Hour 12 false = 0 ∧ to24Hour 12 true = 12 ∧
      (∀ h, h ≠ 12 → to24Hour h true = h + 12) ∧
      (∀ h, h ≠ 12 → to24Hour h false = h)) ∧
    (d.hour = to24Hour tm.hour tm.isPM →
      correctTimeExtraction e (some tm) = Except.ok (e, false)) ∧
    (d.hour ≠ to24Hour tm.hour tm.isPM →
      correctTimeExtraction e (some tm) =
        Except.ok
          ({ e with
              startDate := DateField.valid
                { d with hour := to24Hour tm.hour tm.isPM,
                         minute := tm.minute.getD 0, second := 0 },
              endDate := DateField.valid
                (plusOneHour
                  { d with hour := to24Hour tm.hour tm.isPM,
                           minute := tm.minute.getD 0, second := 0 }) }, true)) := by
  refine ⟨⟨by decide, by decide, ?_, ?_⟩, ?_, ?_⟩
  · intro h hh
    simp [to24Hour, hh]
  · intro h hh
    simp [to24Hour, hh]
  · intro heq
    simp [correctTimeExtraction, hd, heq]
  · intro hne
    have hs : setHoursMin d (to24Hour tm.hour tm.isPM) (tm.minute.getD 0) =
        { d with hour := to24Hour tm.hour tm.isPM, minute := tm.minute.getD 0, second := 0 } := by
      simp [setHoursMin, hch]
    have hen : setHoursMin
        { d with hour := to24Hour tm.hour tm.isPM, minute := tm.minute.getD 0, second := 0 }
        (to24Hour tm.hour tm.isPM + 1) (tm.minute.getD 0) =
        plusOneHour
          { d with hour := to24Hour tm.hour tm.isPM, minute := tm.minute.getD 0, second := 0 } := by
      rcases Nat.lt_or_ge (to24Hour tm.hour tm.isPM) 23 with hlt | hge
      · have h1 : to24Hour tm.hour tm.isPM + 1 ≤ 23 := by omega
        simp [setHoursMin, plusOneHour, h1, hlt]
      · have h23 : to24Hour tm.hour tm.isPM = 23 := by omega
        rw [h23]
        simp [setHoursMin, plusOneHour]
    simp [correctTimeExtraction, hd, hne, hs, hen]

def c3wd : JsDateTime := ⟨2025, 6, 31, 9, 0, 0⟩

def c3we : EventData :=
  { emptyEvent with startDate := DateField.valid c3wd,
                    endDate := DateField.valid ⟨2025, 6, 31, 10, 0, 0⟩ }

def c3wm : TimeMatch := ⟨3, none, true⟩

/-- Witness for the amended C3: the phrase 3pm (15:00) against an
inferred 09:00 start triggers a correction to 15:00 with end 16:00. -/
theorem c3_witness :
    to24Hour c3wm.hour c3wm.isPM ≤ 23 ∧ c3wm.minute.getD 0 ≤ 59 ∧
    c3wd.hour ≠ to24Hour c3wm.hour c3wm.isPM ∧
    correctTimeExtraction c3we (some c3wm) =
      Except.ok
        ({ c3we with
            startDate := DateField.valid
              { c3wd with hour := to24Hour c3wm.hour c3wm.isPM,
                          minute := c3wm.minute.getD 0, second := 0 },
            endDate := DateField.valid
              (plusOneHour
                { c3wd with hour := to24Hour c3wm.hour c3wm.isPM,
                            minute := c3wm.minute.getD 0, second := 0 }) }, true) :=
  ⟨by decide, by decide, by decide,
   (c3_time_correction_amended c3we c3wd c3wm rfl (by decide) (by decide)).2.2 (by decide)⟩

def c8e : EventData :=
  { emptyEvent with startDate := DateField.invalid,
                    endDate := DateField.valid ⟨2025, 5, 10, 15, 0, 0⟩ }

/-- Claim C8 (code bug): with an unparseable start date and a time
phrase (here 2pm) present in the source text, `correctTimeExtraction`
reaches `toISOString()` on an Invalid Date and throws a `RangeError`
instead of returning the input unchanged - so the Date/Time Corrector
is not exception-free as the claim requires. -/
theorem c8_corrector_throws_on_invalid_date :
    correctTimeExtraction c8e (some ⟨2, none, true⟩) = Except.error JsError.rangeError ∧
    dateTimeCorrector c8e (some ⟨2, none, true⟩) 2025 = Except.error JsError.rangeError := by
  refine ⟨by decide, by decide⟩

lemma setFullYear_year_ge (d : JsDateTime) (y : Int) :
    y ≤ (setFullYear d y).year := by
  unfold setFullYear
  split_ifs <;> simp <;> omega

lemma setFullYear_hour (d : JsDateTime) (y : Int) :
    (setFullYear d y).hour = d.hour := by
  unfold setFullYear
  split_ifs <;> rfl

lemma cey_absent (e : EventData) (cy : Int) (h : e.startDate = DateField.absent) :
    correctEventYear e cy = (e, false, []) := by
  simp [correctEventYear, h]

lemma cey_invalid (e : EventData) (cy : Int) (h : e.startDate = DateField.invalid) :
    correctEventYear e cy = (e, false, []) := by
  simp [correctEventYear, h]

lemma cey_valid_ge (e : EventData) (cy : Int) (sd : JsDateTime)
    (h : e.startDate = DateField.valid sd) (hy : ¬ sd.year < max 2025 cy) :
    correctEventYear e cy = (e, false, []) := by
  simp [correctEventYear, h, hy]

lemma cey_valid_lt_validEnd (e : EventData) (cy : Int) (sd ed : JsDateTime)
    (hs : e.startDate = DateField.valid sd) (he : e.endDate = DateField.valid ed)
    (hy : sd.year < max 2025 cy) :
    correctEventYear e cy =
      ({ e with startDate := DateField.valid (setFullYear sd (max 2025 cy)),
                endDate := DateField.valid (setFullYear ed (max 2025 cy)) },
       true, [Warning.yearCorrected (max 2025 cy)]) := by
  simp [correctEventYear, hs, he, hy]

lemma cey_valid_lt_absentEnd (e : EventData) (cy : Int) (sd : JsDateTime)
    (hs : e.startDate = DateField.valid sd) (he : e.endDate = DateField.absent)
    (hy : sd.year < max 2025 cy) :
    correctEventYear e cy =
      ({ e with startDate := DateField.valid (setFullYear sd (max 2025 cy)) }, false, []) := by
  simp [correctEventYear, hs, he, hy]

lemma cey_valid_lt_invalidEnd (e : EventData) (cy : Int) (sd : JsDateTime)
    (hs : e.startDate = DateField.valid sd) (he : e.endDate = DateField.invalid)
    (hy : sd.year < max 2025 cy) :
    correctEventYear e cy =
      ({ e with startDate := DateField.valid (setFullYear sd (max 2025 cy)) }, false, []) := by
  simp [correctEventYear, hs, he, hy]

/-- A second run of the year correction on the result of a first run
changes nothing: after the first run the start year is at or above the
floor (or still unparseable). -/
lemma correctEventYear_idem (e : EventData) (cy : Int) :
    correctEventYear (correctEventYear e cy).1 cy = ((correctEventYear e cy).1, false, []) := by
  cases hs : e.startDate with
  | absent => rw [cey_absent e cy hs, cey_absent e cy hs]
  | invalid => rw [cey_invalid e cy hs, cey_invalid e cy hs]
  | valid sd =>
    by_cases hy : sd.year < max 2025 cy
    · have hge : ¬ (setFullYear sd (max 2025 cy)).year < max 2025 cy := by
        have := setFullYear_year_ge sd (max 2025 cy)
        omega
      cases he : e.endDate with
      | valid ed =>
        rw [cey_valid_lt_validEnd e cy sd ed hs he hy]
        exact cey_valid_ge _ cy (setFullYear sd (max 2025 cy)) rfl hge
      | absent =>
        rw [cey_valid_lt_absentEnd e cy sd hs he hy]
        exact cey_valid_ge _ cy (setFullYear sd (max 2025 cy)) rfl hge
      | invalid =>
        rw [cey_valid_lt_invalidEnd e cy sd hs he hy]
        exact cey_valid_ge _ cy (setFullYear sd (max 2025 cy)) rfl hge
    · rw [cey_valid_ge e cy sd hs hy, cey_valid_ge e cy sd hs hy]

/-- The year correction does not change the start date's hour (nor
whether it is parseable). -/
lemma cey_start_hour (e : EventData) (cy : Int) (d : JsDateTime)
    (h : e.startDate = DateField.valid d) :
    ∃ d2, (correctEventYear e cy).1.startDate = DateField.valid d2 ∧ d2.hour = d.hour := by
  by_cases hy : d.year < max 2025 cy
  · cases he : e.endDate with
    | valid ed =>
      refine ⟨setFullYear d (max 2025 cy), ?_, setFullYear_hour d _⟩
      rw [cey_valid_lt_validEnd e cy d ed h he hy]
    | absent =>
      refine ⟨setFullYear d (max 2025 cy), ?_, setFullYear_hour d _⟩
      rw [cey_valid_lt_absentEnd e cy d h he hy]
    | invalid =>
      refine ⟨setFullYear d (max 2025 cy), ?_, setFullYear_hour d _⟩
      rw [cey_valid_lt_invalidEnd e cy d h he hy]
  · exact ⟨d, by rw [cey_valid_ge e cy d h hy]; exact h, rfl⟩

lemma cte_none (e : EventData) : correctTimeExtraction e none = Except.ok (e, false) := rfl

lemma cte_valid_eq (e : EventData) (tm : TimeMatch) (d : JsDateTime)
    (hd : e.startDate = DateField.valid d)
    (h : d.hour = to24Hour tm.hour tm.isPM) :
    correctTimeExtraction e (some tm) = Except.ok (e, false) := by
  simp [correctTimeExtraction, hd, h]

lemma cte_valid_ne (e : EventData) (tm : TimeMatch) (d : JsDateTime)
    (hd : e.startDate = DateField.valid d)
    (h : d.hour ≠ to24Hour tm.hour tm.isPM) :
    correctTimeExtraction e (some tm) =
      Except.ok
        ({ e with
            startDate := DateField.valid (setHoursMin d (to24Hour tm.hour tm.isPM) (tm.minute.getD 0)),
            endDate := DateField.valid
              (setHoursMin (setHoursMin d (to24Hour tm.hour tm.isPM) (tm.minute.getD 0))
                (to24Hour tm.hour tm.isPM + 1) (tm.minute.getD 0)) }, true) := by
  simp [correctTimeExtraction, hd, h]

lemma setHoursMin_hour (d : JsDateTime) (h m : Nat) (hh : h ≤ 23) :
    (setHoursMin d h m).hour = h := by
  simp [setHoursMin, hh]

def c4sd : JsDateTime := ⟨2025, 5, 10, 5, 0, 0⟩

def c4e : EventData :=
  { emptyEvent with startDate := DateField.valid c4sd,
                    endDate := DateField.valid ⟨2025, 5, 10, 6, 0, 0⟩ }

def c4m : TimeMatch := ⟨13, none, true⟩

def c4e1 : EventData :=
  { emptyEvent with startDate := DateField.valid ⟨2025, 5, 11, 1, 0, 0⟩,
                    endDate := DateField.valid ⟨2025, 5, 12, 2, 0, 0⟩ }

def c4e2 : EventData :=
  { emptyEvent with startDate := DateField.valid ⟨2025, 5, 12, 1, 0, 0⟩,
                    endDate := DateField.valid ⟨2025, 5, 13, 2, 0, 0⟩ }

/-- Counterexample to claim C4 as stated: with the time phrase "13pm"
(which the regex matches with hour token 13, converted to 25), each run
of the corrector moves the start a further day ahead, so the second run
with identical arguments both reports another correction and changes
the record again. -/
theorem c4_counterexample :
    dateTimeCorrector c4e (some c4m) 2025 = Except.ok (c4e1, true, false, []) ∧
    dateTimeCorrector c4e1 (some c4m) 2025 = Except.ok (c4e2, true, false, []) ∧
    c4e2 ≠ c4e1 := by
  refine ⟨by decide, by decide, by decide⟩

/-- Claim C4 amended: the Date/Time Corrector is idempotent for every
record, reference year and source text whose first time phrase (if any)
converts to a representable time - a 24-hour value of at most 23 and a
minute token of at most 59.  (For phrases like "13pm" or minute tokens
above 59 the JS date rollover makes repeated runs drift, as the
counterexample shows.) -/
lemma dtc_of_cte (e : EventData) (fm : Option TimeMatch) (cy : Int) (e2 : EventData) (tc : Bool)
    (h : correctTimeExtraction e fm = Except.ok (e2, tc)) :
    dateTimeCorrector e fm cy =
      Except.ok ((correctEventYear e2 cy).1, tc,
        (correctEventYear e2 cy).2.1, (correctEventYear e2 cy).2.2) := by
  rw [dateTimeCorrector, h]

theorem c4_corrector_idempotent_amended (e : EventData) (fm : Option TimeMatch) (cy : Int)
    (hm : ∀ tm, fm = some tm → to24Hour tm.hour tm.isPM ≤ 23 ∧ tm.minute.getD 0 ≤ 59)
    (e1 : EventData) (tc yc : Bool) (w : List Warning)
    (h1 : dateTimeCorrector e fm cy = Except.ok (e1, tc, yc, w)) :
    dateTimeCorrector e1 fm cy = Except.ok (e1, false, false, []) := by
  cases fm with
  | none =>
    rw [dtc_of_cte e none cy e false (cte_none e)] at h1
    simp only [Except.ok.injEq, Prod.mk.injEq] at h1
    obtain ⟨he1, -⟩ := h1
    subst he1
    rw [dtc_of_cte _ none cy _ false (cte_none _), correctEventYear_idem]
  | some tm =>
    obtain ⟨hch, -⟩ := hm tm rfl
    cases hsd : e.startDate with
    | absent =>
      rw [dateTimeCorrector] at h1
      simp [correctTimeExtraction, hsd] at h1
    | invalid =>
      rw [dateTimeCorrector] at h1
      simp [correctTimeExtraction, hsd] at h1
    | valid d =>
      by_cases hne : d.hour = to24Hour tm.hour tm.isPM
      · rw [dtc_of_cte e (some tm) cy e false (cte_valid_eq e tm d hsd hne)] at h1
        simp only [Except.ok.injEq, Prod.mk.injEq] at h1
        obtain ⟨he1, -⟩ := h1
        subst he1
        obtain ⟨d2, hd2, hd2h⟩ := cey_start_hour e cy d hsd
        rw [dtc_of_cte _ (some tm) cy _ false
              (cte_valid_eq _ tm d2 hd2 (by rw [hd2h]; exact hne)),
            correctEventYear_idem]
      · rw [dtc_of_cte e (some tm) cy _ true (cte_valid_ne e tm d hsd hne)] at h1
        simp only [Except.ok.injEq, Prod.mk.injEq] at h1
        obtain ⟨he1, -⟩ := h1
        subst he1
        obtain ⟨d2, hd2, hd2h⟩ :=
          cey_start_hour
            { e with
                startDate := DateField.valid
                  (setHoursMin d (to24Hour tm.hour tm.isPM) (tm.minute.getD 0)),
                endDate := DateField.valid
                  (setHoursMin (setHoursMin d (to24Hour tm.hour tm.isPM) (tm.minute.getD 0))
                    (to24Hour tm.hour tm.isPM + 1) (tm.minute.getD 0)) }
            cy (setHoursMin d (to24Hour tm.hour tm.isPM) (tm.minute.getD 0)) rfl
        have hd2eq : d2.hour = to24Hour tm.hour tm.isPM := by
          rw [hd2h, setHoursMin_hour d _ _ hch]
        rw [dtc_of_cte _ (some tm) cy _ false (cte_valid_eq _ tm d2 hd2 hd2eq),
            correctEventYear_idem]

def c4wsd : JsDateTime := ⟨2025, 7, 20, 9, 0, 0⟩

def c4we : EventData :=
  { emptyEvent with startDate := DateField.valid c4wsd,
                    endDate := DateField.valid ⟨2025, 7, 20, 10, 0, 0⟩ }

def c4we1 : EventData :=
  { emptyEvent with startDate := DateField.valid ⟨2025, 7, 20, 15, 0, 0⟩,
                    endDate := DateField.valid ⟨2025, 7, 20, 16, 0, 0⟩ }

def c4wm : TimeMatch := ⟨3, none, true⟩

/-- Witness for the amended C4: a concrete first run corrects 09:00 to
15:00 per the phrase 3pm, and the second run with identical arguments
changes nothing and makes zero corrections. -/
theorem c4_witness :
    (∀ tm, some c4wm = some tm → to24Hour tm.hour tm.isPM ≤ 23 ∧ tm.minute.getD 0 ≤ 59) ∧
    dateTimeCorrector c4we (some c4wm) 2025 = Except.ok (c4we1, true, false, []) ∧
    dateTimeCorrector c4we1 (some c4wm) 2025 = Except.ok (c4we1, false, false, []) :=
  ⟨fun tm h => by cases h; exact ⟨by decide, by decide⟩,
   by decide,
   c4_corrector_idempotent_amended c4we (some c4wm) 2025
     (fun tm h => by cases h; exact ⟨by decide, by decide⟩)
     c4we1 true false [] (by decide)⟩

lemma mapValidate_mem_error (l : List EventData) (e : EventData)
    (hmem : e ∈ l) (er : ValidationError)
    (he : validateAndNormalizeSingleEvent e = Except.error er) :
    ∃ er2, mapValidate l = Except.error er2 := by
  induction l with
  | nil => cases hmem
  | cons a t ih =>
    rcases List.mem_cons.mp hmem with rfl | hmt
    · exact ⟨er, by simp [mapValidate, he]⟩
    · cases ha : validateAndNormalizeSingleEvent a with
      | error er2 => exact ⟨er2, by simp [mapValidate, ha]⟩
      | ok a1 =>
        obtain ⟨er2, ht⟩ := ih hmt
        exact ⟨er2, by simp [mapValidate, ha, ht]⟩

/-- Claim C1: a record whose parseable end date is at or before its
parseable start date makes the Event Record Validator fail with the
ordering error ("End date must be after start date"), and any request
whose batch contains such a record is answered with the internal-error
outcome, which carries no calendar document. -/
theorem c1_ordering_error_blocks_document (e : EventData) (s t : JsDateTime)
    (evs : List EventData) (uid ts : Str)
    (hs : e.startDate = DateField.valid s) (ht : e.endDate = DateField.valid t)
    (hle : dateLe t s = true) (hmem : e ∈ evs) :
    validateAndNormalizeSingleEvent e = Except.error ValidationError.orderingError ∧
    handleEventExtraction (AiPayload.batch true evs) uid ts = ExtractResult.internalError ∧
    resultIcs (handleEventExtraction (AiPayload.batch true evs) uid ts) = none := by
  have hval : validateAndNormalizeSingleEvent e = Except.error ValidationError.orderingError := by
    simp [validateAndNormalizeSingleEvent, hs, ht, hle]
  obtain ⟨er2, hmap⟩ := mapValidate_mem_error evs e hmem _ hval
  refine ⟨hval, ?_, ?_⟩ <;>
    simp [handleEventExtraction, parseContentPost, hmap, resultIcs]

def c1we : EventData :=
  { emptyEvent with startDate := DateField.valid ⟨2025, 5, 10, 15, 0, 0⟩,
                    endDate := DateField.valid ⟨2025, 5, 10, 15, 0, 0⟩ }

/-- Witness for C1 at a concrete record whose end equals its start. -/
theorem c1_witness :
    dateLe ⟨2025, 5, 10, 15, 0, 0⟩ ⟨2025, 5, 10, 15, 0, 0⟩ = true ∧
    c1we ∈ [c1we] ∧
    (validateAndNormalizeSingleEvent c1we = Except.error ValidationError.orderingError ∧
     handleEventExtraction (AiPayload.batch true [c1we]) [] [] = ExtractResult.internalError ∧
     resultIcs (handleEventExtraction (AiPayload.batch true [c1we]) [] []) = none) :=
  ⟨by decide, by decide,
   c1_ordering_error_blocks_document c1we ⟨2025, 5, 10, 15, 0, 0⟩ ⟨2025, 5, 10, 15, 0, 0⟩
     [c1we] [] [] rfl rfl (by decide) (by decide)⟩

/-- Claim C9: an inference result with `hasEvent = false` makes the
pipeline short-circuit to the no-event outcome; that outcome carries no
calendar document and its response (status and message) is distinct
from the response of every error outcome. -/
theorem c9_no_event_short_circuit (p : AiPayload) (uid ts : Str)
    (h : payloadHasEvent p = false) :
    handleEventExtraction p uid ts = ExtractResult.noEventFound ∧
    resultIcs (handleEventExtraction p uid ts) = none ∧
    responseOf ExtractResult.noEventFound ≠ responseOf ExtractResult.internalError ∧
    responseOf ExtractResult.noEventFound ≠ responseOf ExtractResult.invalidInput ∧
    (∀ pl ics, ExtractResult.noEventFound ≠ ExtractResult.success pl ics) := by
  have hshort : handleEventExtraction p uid ts = ExtractResult.noEventFound := by
    cases p with
    | batch hE evs =>
      cases hE with
      | false => simp [handleEventExtraction, parseContentPost, payloadHasEvent]
      | true => simp [payloadHasEvent] at h
    | flat hE ev =>
      cases hE with
      | false => simp [handleEventExtraction, parseContentPost, payloadHasEvent]
      | true => simp [payloadHasEvent] at h
  refine ⟨hshort, by rw [hshort]; rfl, by decide, by decide, fun pl ics => by simp⟩

/-- Witness for C9 at the empty no-event batch. -/
theorem c9_witness :
    payloadHasEvent (AiPayload.batch false []) = false ∧
    handleEventExtraction (AiPayload.batch false []) [] [] = ExtractResult.noEventFound :=
  ⟨rfl, (c9_no_event_short_circuit (AiPayload.batch false []) [] [] rfl).1⟩

/-- Claim C10: a record whose `meetingLink` holds the scanner sentinel
has the literal text `Join Meeting: MEETING_LINK_PRESENT_BUT_NOT_EXTRACTED`
appended to the DESCRIPTION property of the generated document, so the
internal sentinel appears verbatim in the user-visible calendar file. -/
theorem c10_sentinel_in_description (e : EventData) (uid ts : Str)
    (h : e.meetingLink = some sentinelLink) :
    ("DESCRIPTION:".data ++ buildDescription e) ∈ generateICSContent uid ts e ∧
    ∃ p, buildDescription e = p ++ ("Join Meeting: ".data ++ sentinelLink) := by
  constructor
  · simp [generateICSContent]
  · have hne : sentinelLink ≠ [] := by decide
    refine ⟨if e.description.getD [] = [] then e.description.getD []
            else e.description.getD [] ++ "\\n\\n".data, ?_⟩
    simp [buildDescription, truthy, h, hne, List.append_assoc]

def c10we : EventData := { emptyEvent with meetingLink := some sentinelLink }

/-- Witness for C10 at a concrete record carrying the sentinel. -/
theorem c10_witness :
    c10we.meetingLink = some sentinelLink ∧
    (("DESCRIPTION:".data ++ buildDescription c10we) ∈ generateICSContent [] [] c10we ∧
     ∃ p, buildDescription c10we = p ++ ("Join Meeting: ".data ++ sentinelLink)) :=
  ⟨rfl, c10_sentinel_in_description c10we [] [] rfl⟩
